/-
  Verification of the PDF-filling core of the pdftitan backend
  (src/backend-py/services/pdf_service.py and the named-field filler of
  src/backend-py/routers/backflow.py), shallowly embedded in Lean 4.

  Python dictionary values are modelled by `PyVal`; element dictionaries by
  association lists; machine floats by rationals; raised exceptions by
  `Except String`.  Library calls (pypdf parsing, reportlab drawing, PIL
  image decoding) are modelled at the level of the calls the repository
  makes to them, as stated in each doc comment.
-/
import Mathlib

namespace PdfTitan

instance {α β : Type} [DecidableEq α] [DecidableEq β] : DecidableEq (Except α β)
  | Except.error a, Except.error b =>
    if h : a = b then isTrue (by rw [h]) else isFalse (by intro hc; cases hc; exact h rfl)
  | Except.error _, Except.ok _ => isFalse (by intro hc; cases hc)
  | Except.ok _, Except.error _ => isFalse (by intro hc; cases hc)
  | Except.ok a, Except.ok b =>
    if h : a = b then isTrue (by rw [h]) else isFalse (by intro hc; cases hc; exact h rfl)

/-- A Python value as it may appear in an element dictionary:
`None`, a bool, an int, a float (as a rational) or a string. -/
inductive PyVal where
  | none
  | bool (b : Bool)
  | int (n : ℤ)
  | num (q : ℚ)
  | str (s : String)
deriving DecidableEq, Repr

/-- Python truthiness of a `PyVal` (`bool(v)`). -/
def pyTruthy : PyVal → Bool
  | PyVal.none => false
  | PyVal.bool b => b
  | PyVal.int n => decide (n ≠ 0)
  | PyVal.num q => decide (q ≠ 0)
  | PyVal.str s => decide (s ≠ "")

/-- Python `a or b`: `a` if truthy, else `b`. -/
def pyOr (a b : PyVal) : PyVal := if pyTruthy a then a else b

/-- Numeric view used by Python `==`: bools are ints, ints embed in floats. -/
def toNum? : PyVal → Option ℚ
  | PyVal.bool b => some (if b then 1 else 0)
  | PyVal.int n => some (n : ℚ)
  | PyVal.num q => some q
  | _ => Option.none

/-- Python `==` on the modelled values: numeric cross-type equality,
string equality, `None == None`; everything else is unequal. -/
def pyEq (a b : PyVal) : Bool :=
  match toNum? a, toNum? b with
  | some x, some y => decide (x = y)
  | _, _ =>
    match a, b with
    | PyVal.str s, PyVal.str t => decide (s = t)
    | PyVal.none, PyVal.none => true
    | _, _ => false

/-- Python `str()` of a modelled value (only the cases the code exercises). -/
def pyStr : PyVal → String
  | PyVal.none => "None"
  | PyVal.bool b => if b then "True" else "False"
  | PyVal.int n => toString n
  | PyVal.num q => toString q
  | PyVal.str s => s

/-- Whitespace for the purposes of `str.strip()` / `float(str)`. -/
def isWs (c : Char) : Bool := c = ' ' || c = '\t' || c = '\n' || c = '\r'

/-- Strip leading and trailing whitespace from a character list. -/
def trimChars (cs : List Char) : List Char :=
  ((cs.dropWhile isWs).reverse.dropWhile isWs).reverse

/-- `str.strip()`. -/
def trimStr (s : String) : String := String.mk (trimChars s.data)

/-- Split a character list on a separator character (like `str.split`);
always returns at least one (possibly empty) group. -/
def splitChar (sep : Char) : List Char → List (List Char)
  | [] => [[]]
  | c :: rest =>
    let r := splitChar sep rest
    if c = sep then [] :: r
    else
      match r with
      | [] => [[c]]
      | g :: gs => (c :: g) :: gs

/-- `s.startswith(p)`. -/
def strStartsWith (s p : String) : Bool := p.data.isPrefixOf s.data

/-- The value of a run of decimal digits, `Option.none` on a non-digit. -/
def digitsVal? (cs : List Char) : Option ℕ :=
  cs.foldl
    (fun acc c =>
      match acc with
      | some n => if c.isDigit then some (n * 10 + (c.toNat - 48)) else Option.none
      | Option.none => Option.none)
    (some 0)

/-- Python `float(s)` on a string: optional surrounding whitespace, an
optional sign, decimal digits with an optional fractional part; anything
else fails. -/
def parseFloatStr (s : String) : Option ℚ :=
  let t := trimChars s.data
  let neg : Bool := match t with | '-' :: _ => true | _ => false
  let core : List Char :=
    match t with
    | '-' :: r => r
    | '+' :: r => r
    | r => r
  let mk : ℚ → Option ℚ := fun q => some (if neg then -q else q)
  match splitChar '.' core with
  | [a] =>
    if a.isEmpty then Option.none
    else
      match digitsVal? a with
      | some n => mk (n : ℚ)
      | Option.none => Option.none
  | [a, b] =>
    if a.isEmpty ∧ b.isEmpty then Option.none
    else
      match digitsVal? a, digitsVal? b with
      | some n, some f => mk ((n : ℚ) + (f : ℚ) / (10 : ℚ) ^ b.length)
      | _, _ => Option.none
  | _ => Option.none

/-- Python `float(v)`: numbers and bools convert, strings are parsed,
`None` raises `TypeError`. -/
def pyFloat : PyVal → Except String ℚ
  | PyVal.none => Except.error "TypeError: float() argument is None"
  | PyVal.bool b => Except.ok (if b then 1 else 0)
  | PyVal.int n => Except.ok (n : ℚ)
  | PyVal.num q => Except.ok q
  | PyVal.str s =>
    match parseFloatStr s with
    | some q => Except.ok q
    | Option.none => Except.error "ValueError: could not convert string to float"

/-- An element dictionary: an association list from key to value. -/
abbrev Elem : Type := List (String × PyVal)

/-- First value bound to key `k`, `Option.none` when the key is absent. -/
def lookupKey : List (String × PyVal) → String → Option PyVal
  | [], _ => Option.none
  | kv :: rest, k => if kv.1 = k then some kv.2 else lookupKey rest k

/-- Python `element.get(k, d)`. -/
def getD (e : Elem) (k : String) (d : PyVal) : PyVal := (lookupKey e k).getD d

/-- Python `element.get(k)` (default `None`). -/
def getRaw (e : Elem) (k : String) : PyVal := (lookupKey e k).getD PyVal.none

/-- `float(element.get(k) or d)` — the numeric-field idiom of
`_build_overlay` (pdf_service.py lines 48–53). -/
def getNumField (e : Elem) (k : String) (d : ℤ) : Except String ℚ :=
  pyFloat (pyOr (getRaw e k) (PyVal.int d))

/-- `content is True or content == "true" or content == 1` —
the checkbox truthiness test of `_build_overlay` (line 67). -/
def isChecked (v : PyVal) : Bool :=
  decide (v = PyVal.bool true) || pyEq v (PyVal.str "true") || pyEq v (PyVal.int 1)

/-- The color-string normalisation of `_build_overlay` (lines 56–58):
`element.get("color") or "#1e3a8a"`, then prepend `#` when missing.
Calling `.startswith` on a non-string raises `AttributeError`. -/
def ensureColor (v : PyVal) : Except String String :=
  match pyOr v (PyVal.str "#1e3a8a") with
  | PyVal.str s => Except.ok (if strStartsWith s "#" then s else "#" ++ s)
  | _ => Except.error "AttributeError: startswith"

/-- A call `_build_overlay` makes into a drawing helper: `_draw_text`
(text content, x, pdf_y, font size, color string) or `_draw_signature`
(data URI, x, pdf_y, width, height). -/
inductive Call where
  | text (content : PyVal) (x pdfY fontSize : ℚ) (color : String)
  | sig (dataUri : String) (x pdfY width height pageWidth : ℚ)
deriving DecidableEq, Repr

/-- The vertical anchor (`pdf_y`) argument of a helper call. -/
def Call.yArg : Call → ℚ
  | Call.text _ _ y _ _ => y
  | Call.sig _ _ y _ _ _ => y

/-- Whether a helper call draws the checkbox glyph `"X"`. -/
def isMark : Call → Bool
  | Call.text (PyVal.str s) _ _ _ _ => decide (s = "X")
  | _ => false

/-- The type dispatch of `_build_overlay` (lines 63–77): text-like types
call `_draw_text` with the content, a truthy checkbox calls `_draw_text`
with the glyph `"X"`, a signature whose content is a string starting with
`data:image/` calls `_draw_signature`; everything else draws nothing. -/
def dispatch (elType content : PyVal) (x pdfY width height fontSize : ℚ)
    (colorStr : String) (pw : ℚ) : List Call :=
  if elType = PyVal.str "text" ∨ elType = PyVal.str "date" ∨
      elType = PyVal.str "timestamp" then
    [Call.text content x pdfY fontSize colorStr]
  else if elType = PyVal.str "checkbox" then
    if isChecked content then [Call.text (PyVal.str "X") x pdfY fontSize colorStr]
    else []
  else if elType = PyVal.str "signature" then
    match content with
    | PyVal.str s =>
      if strStartsWith s "data:image/" then [Call.sig s x pdfY width height pw]
      else []
    | _ => []
  else []

/-- The per-element body of `_build_overlay` (pdf_service.py lines 46–77):
parse the numeric fields (each `float(...)` may raise), normalise the color,
convert the vertical coordinate (line 61), and dispatch on the element type.
An `Except.error` is an exception escaping the element body. -/
def renderElement (e : Elem) (ph pw : ℚ) : Except String (List Call) := do
  let elType := getD e "type" (PyVal.str "")
  let x ← getNumField e "x" 0
  let y ← getNumField e "y" 0
  let width ← getNumField e "width" 100
  let height ← getNumField e "height" 20
  let content := getD e "content" (PyVal.str "")
  let fontSize ← getNumField e "fontSize" 11
  let colorStr ← ensureColor (getRaw e "color")
  let pdfY := ph - y - height + 1
  pure (dispatch elType content x pdfY width height fontSize colorStr pw)

/-- The element loop of `_build_overlay` (lines 45–80): each element's body
runs inside `try/except`, so a failing element contributes nothing and the
loop continues with the remaining elements. -/
def buildOverlay : List Elem → ℚ → ℚ → List Call
  | [], _, _ => []
  | e :: es, ph, pw =>
    (match renderElement e ph pw with
      | Except.ok cs => cs
      | Except.error _ => []) ++ buildOverlay es ph pw

/-- A resolved fill color: `black` (reportlab's `black` fallback) or the
RGB value parsed from a hex string. -/
inductive PdfColor where
  | black
  | hexC (v : ℕ)
deriving DecidableEq, Repr

/-- Value of one hexadecimal digit. -/
def hexDigitVal? (c : Char) : Option ℕ :=
  if c.isDigit then some (c.toNat - 48)
  else if 'a' ≤ c ∧ c ≤ 'f' then some (c.toNat - 87)
  else if 'A' ≤ c ∧ c ≤ 'F' then some (c.toNat - 55)
  else Option.none

/-- `int(s, 16)` on the digits after a `#`: fails when empty or on any
non-hex character (the `ValueError` inside reportlab's `HexColor`). -/
def hexVal? (s : String) : Option ℕ :=
  match s.data with
  | '#' :: rest =>
    if rest.isEmpty then Option.none
    else
      rest.foldl
        (fun acc c =>
          match acc, hexDigitVal? c with
          | some n, some d => some (n * 16 + d)
          | _, _ => Option.none)
        (some 0)
  | _ => Option.none

/-- The color resolution of `_draw_text` (lines 97–100): `HexColor` on the
string, falling back to `black` when it raises. -/
def resolveColor (s : String) : PdfColor :=
  match hexVal? s with
  | some v => PdfColor.hexC v
  | Option.none => PdfColor.black

/-- A primitive drawing operation put on the page: a text string at a
position with a size and resolved color, or a placed image rectangle. -/
inductive DrawOp where
  | string (x y : ℚ) (text : String) (fontSize : ℚ) (color : PdfColor)
  | image (x y w h : ℚ)
deriving DecidableEq, Repr

/-- `_draw_text` (lines 87–108): skip falsy or whitespace-only content,
resolve the color, split on newline and draw each non-blank line stripped,
line `i` at `pdf_y - i * font_size`. -/
def execText (content : PyVal) (x pdfY fontSize : ℚ) (colorStr : String) :
    List DrawOp :=
  if pyTruthy content = false ∨ trimChars (pyStr content).data = [] then []
  else
    let color := resolveColor colorStr
    (splitChar '\n' (pyStr content).data).enum.filterMap fun p =>
      if trimChars p.2 = [] then Option.none
      else
        some (DrawOp.string x (pdfY - (p.1 : ℚ) * fontSize)
          (String.mk (trimChars p.2)) fontSize color)

/-- Models `base64.b64decode` + PIL `Image.open` on a data URI: the payload
after the comma of the `data:image/...;base64,` prefix is taken to carry
the decoded bitmap's pixel dimensions as `WxH`; a malformed payload fails
to decode (PIL raises, caught by `_draw_signature`'s handler). -/
def decodeImage (s : String) : Option (ℕ × ℕ) :=
  match splitChar ',' s.data with
  | [_, payload] =>
    match splitChar 'x' payload with
    | [w, h] =>
      if w.isEmpty ∨ h.isEmpty then Option.none
      else
        match digitsVal? w, digitsVal? h with
        | some iw, some ih => some (iw, ih)
        | _, _ => Option.none
    | _ => Option.none
  | _ => Option.none

/-- The scale-to-fit computation of `_draw_signature` (lines 126–135),
given the element's width/height, its x, the page width and the image
aspect ratio `img.width / img.height`; returns (draw width, draw height). -/
def scaleSig (width height x pageWidth imgRatio : ℚ) : ℚ × ℚ :=
  let drawWidth := min width (pageWidth - x - 10)
  let drawHeight := min height 60
  if 0 < drawHeight ∧ drawHeight < drawWidth / imgRatio then
    (drawHeight * imgRatio, drawHeight)
  else
    (drawWidth, if 0 < imgRatio then drawWidth / imgRatio else drawHeight)

/-- `_draw_signature` (lines 111–150): decode the image, compute the
scaled size, place the image; every failure (bad payload, zero division)
is caught by the function's own `try/except` and draws nothing. -/
def execSig (dataUri : String) (x pdfY width height pw : ℚ) : List DrawOp :=
  match decodeImage dataUri with
  | Option.none => []
  | some (iw, ih) =>
    if ih = 0 then []
    else
      let r := (iw : ℚ) / (ih : ℚ)
      if r = 0 then []
      else
        let wh := scaleSig width height x pw r
        [DrawOp.image x pdfY wh.1 wh.2]

/-- Execute one helper call into its drawing operations. -/
def execCall : Call → List DrawOp
  | Call.text content x pdfY fontSize colorStr => execText content x pdfY fontSize colorStr
  | Call.sig dataUri x pdfY width height pw => execSig dataUri x pdfY width height pw

/-- A PDF page: its mediabox dimensions and the drawing content on it. -/
structure Page where
  width : ℚ
  height : ℚ
  ops : List DrawOp
deriving DecidableEq, Repr

/-- A parsed PDF document: its ordered list of pages. -/
structure Doc where
  pages : List Page
deriving DecidableEq, Repr

/-- Models `PdfWriter(clone_from=BytesIO(bytes))` (pypdf): parsing fails
(a `PdfReadError`) unless the buffer carries the `%PDF` magic; a valid
buffer is taken to encode its pages as `;`-separated `w,h` mediabox pairs
after the magic, each parsed page starting with empty content. -/
def parsePdf (b : String) : Except String Doc :=
  if strStartsWith b "%PDF" = false then
    Except.error "PdfReadError: invalid PDF header"
  else
    let rest := b.data.drop 4
    if rest.isEmpty then Except.ok { pages := [] }
    else
      (splitChar ';' rest).foldr
        (fun seg acc =>
          match acc with
          | Except.error m => Except.error m
          | Except.ok d =>
            match splitChar ',' seg with
            | [w, h] =>
              match parseFloatStr (String.mk w), parseFloatStr (String.mk h) with
              | some qw, some qh =>
                Except.ok { pages := { width := qw, height := qh, ops := [] } :: d.pages }
              | _, _ => Except.error "PdfReadError: malformed page"
            | _ => Except.error "PdfReadError: malformed page")
        (Except.ok { pages := [] })

/-- The element filter of `generate_filled_pdf` (line 23):
`[o for o in objects if o.get("page", 1) == page_num]`. -/
def pageElems (objects : List Elem) (n : ℕ) : List Elem :=
  objects.filter fun o => pyEq (getD o "page" (PyVal.int 1)) (PyVal.int (n : ℤ))

/-- One iteration of the page loop (lines 22–32): skip a page with no
matching elements; otherwise build the overlay from the page's actual
dimensions and merge it on top of the existing content. -/
def fillPage (objects : List Elem) (n : ℕ) (p : Page) : Page :=
  if pageElems objects n = [] then p
  else
    { p with
      ops := p.ops ++ (buildOverlay (pageElems objects n) p.height p.width).flatMap execCall }

/-- `for page_num, page in enumerate(writer.pages, start=1)`. -/
def fillPages (objects : List Elem) : ℕ → List Page → List Page
  | _, [] => []
  | n, p :: ps => fillPage objects n p :: fillPages objects (n + 1) ps

/-- The whole-document fill on an already-parsed document. -/
def fillDoc (d : Doc) (objects : List Elem) : Doc :=
  { pages := fillPages objects 1 d.pages }

/-- `generate_filled_pdf` (pdf_service.py lines 19–36): parse the source
buffer (any parse failure propagates to the caller), then fill page by
page and serialize. -/
def generate_filled_pdf (b : String) (objects : List Elem) : Except String Doc :=
  match parsePdf b with
  | Except.error m => Except.error m
  | Except.ok d => Except.ok (fillDoc d objects)

/-- A document with an interactive form: whether an AcroForm is present,
the page count, and the named field values. -/
structure AcroDoc where
  hasForm : Bool
  numPages : ℕ
  fields : List (String × String)
deriving DecidableEq, Repr

/-- First value bound to a key in a string-valued association list. -/
def lookupStr : List (String × String) → String → Option String
  | [], _ => Option.none
  | kv :: rest, k => if kv.1 = k then some kv.2 else lookupStr rest k

/-- Models pypdf `update_page_form_field_values`: every form field named
in the update map takes the new value; fields not named keep their value;
update keys matching no field are no-ops. -/
def updateFields (fs upd : List (String × String)) : List (String × String) :=
  fs.map fun kv => (kv.1, (lookupStr upd kv.1).getD kv.2)

/-- `text_values = {k: v for k, v in text_values.items() if v}`
(backflow.py line 453) — drop the entries with falsy (empty) values. -/
def filterEmpty (tvs : List (String × String)) : List (String × String) :=
  tvs.filter fun kv => decide (kv.2 ≠ "")

/-- The checkbox loop of `_fill_tceq_pdf` (lines 526–528): each flag set
to true writes its field's "/Yes" appearance state; others touch nothing. -/
def applyChecks (fs : List (String × String)) (checks : List (String × Bool)) :
    List (String × String) :=
  checks.foldl
    (fun acc kv => if kv.2 then updateFields acc [(kv.1, "/Yes")] else acc) fs

/-- `_fill_tceq_pdf` (backflow.py lines 384–532) at the form level: clone
the template (whose parse may fail), require a first page and an AcroForm
(pypdf raises otherwise), drop empty text values, apply the text update,
then the checkbox flags.  An `Except.error` is an exception escaping the
function. -/
def fillTceq (template : Except String AcroDoc) (tvs : List (String × String))
    (checks : List (String × Bool)) : Except String AcroDoc :=
  match template with
  | Except.error m => Except.error m
  | Except.ok d =>
    if d.numPages = 0 then Except.error "IndexError: pages[0]"
    else if d.hasForm = false then Except.error "PdfReadError: no AcroForm"
    else
      Except.ok
        { d with fields := applyChecks (updateFields d.fields (filterEmpty tvs)) checks }

/-- The strategy dispatch of `generate_pdf` (backflow.py lines 557–561):
`try: _fill_tceq_pdf(...) except Exception: _generate_reference_pdf(...)`.
`ref` stands for the output of the independent reference renderer on the
same request data. -/
def generatePdf (template : Except String AcroDoc) (tvs : List (String × String))
    (checks : List (String × Bool)) (ref : AcroDoc) : AcroDoc :=
  match fillTceq template tvs checks with
  | Except.ok d => d
  | Except.error _ => ref

/-- A checkbox element placed with all-default geometry and a given content. -/
def mkCheckbox (v : PyVal) : Elem :=
  [("type", PyVal.str "checkbox"), ("content", v)]

/-- Page count of a fill result, `Option.none` on failure. -/
def resultPageCount : Except String Doc → Option ℕ
  | Except.ok d => some d.pages.length
  | Except.error _ => Option.none

/-- Concrete source buffer: one US-Letter page. -/
def pdfBytesW : String := "%PDF612,792"

/-- The document `pdfBytesW` parses to. -/
def docW : Doc := { pages := [{ width := 612, height := 792, ops := [] }] }

/-- Concrete well-formed text element (the spec's §8 scenario). -/
def elemTextW : Elem :=
  [("type", PyVal.str "text"), ("page", PyVal.int 1), ("x", PyVal.int 100),
   ("y", PyVal.int 100), ("width", PyVal.int 200), ("height", PyVal.int 20),
   ("content", PyVal.str "Hello World"), ("fontSize", PyVal.int 12),
   ("color", PyVal.str "#000000")]

/-- Concrete element whose `x` is a non-numeric string: `float("abc")`
raises inside the element body. -/
def elemBadXW : Elem :=
  [("type", PyVal.str "text"), ("x", PyVal.str "abc"), ("content", PyVal.str "B")]

/-- Concrete text element with a malformed color string. -/
def elemBadColorW : Elem :=
  [("type", PyVal.str "text"), ("content", PyVal.str "Hi"),
   ("color", PyVal.str "zzzz")]

/-- Concrete text element with no `color` key. -/
def elemNoColorW : Elem :=
  [("type", PyVal.str "text"), ("content", PyVal.str "Hi")]

/-- Concrete element with no `page` key. -/
def elemNoPageW : Elem :=
  [("type", PyVal.str "text"), ("content", PyVal.str "A")]

/-- Concrete template form document. -/
def acroW : AcroDoc :=
  { hasForm := true, numPages := 1, fields := [("a", "d1"), ("b", "d2")] }

/-- Concrete reference (fallback) document. -/
def refW : AcroDoc := { hasForm := false, numPages := 2, fields := [] }

theorem exceptBind_ok_iff {α β : Type} (m : Except String α) (f : α → Except String β)
    (b : β) : (m >>= f) = Except.ok b ↔ ∃ a, m = Except.ok a ∧ f a = Except.ok b := by
  cases m with
  | error msg =>
    constructor
    · intro h; exact absurd h (by simp [Bind.bind, Except.bind])
    · rintro ⟨a, ha, -⟩; exact absurd ha (by simp)
  | ok a =>
    constructor
    · intro h; exact ⟨a, rfl, h⟩
    · rintro ⟨a', ha, hf⟩
      cases ha; exact hf

theorem renderElement_ok_iff (e : Elem) (ph pw : ℚ) (calls : List Call) :
    renderElement e ph pw = Except.ok calls ↔
      ∃ x y width height fontSize colorStr,
        getNumField e "x" 0 = Except.ok x ∧
        getNumField e "y" 0 = Except.ok y ∧
        getNumField e "width" 100 = Except.ok width ∧
        getNumField e "height" 20 = Except.ok height ∧
        getNumField e "fontSize" 11 = Except.ok fontSize ∧
        ensureColor (getRaw e "color") = Except.ok colorStr ∧
        calls = dispatch (getD e "type" (PyVal.str "")) (getD e "content" (PyVal.str ""))
          x (ph - y - height + 1) width height fontSize colorStr pw := by
  unfold renderElement
  simp only [exceptBind_ok_iff, pure, Except.pure, Except.ok.injEq]
  constructor
  · rintro ⟨x, hx, y, hy, w, hw, h, hh, fs, hfs, col, hcol, hcalls⟩
    exact ⟨x, y, w, h, fs, col, hx, hy, hw, hh, hfs, hcol, hcalls.symm⟩
  · rintro ⟨x, y, w, h, fs, col, hx, hy, hw, hh, hfs, hcol, hcalls⟩
    exact ⟨x, hx, y, hy, w, hw, h, hh, fs, hfs, col, hcol, hcalls.symm⟩

theorem dispatch_yArg (elType content : PyVal) (x pdfY width height fontSize : ℚ)
    (colorStr : String) (pw : ℚ) :
    ∀ c ∈ dispatch elType content x pdfY width height fontSize colorStr pw,
      c.yArg = pdfY := by
  intro c hc
  unfold dispatch at hc
  rcases content with _ | b | n | q | s <;> (try dsimp only at hc) <;>
    split_ifs at hc <;>
      simp only [List.mem_singleton, List.not_mem_nil] at hc <;> (subst hc; rfl)

theorem dispatch_textColor (elType content : PyVal) (x pdfY width height fontSize : ℚ)
    (colorStr : String) (pw : ℚ) :
    ∀ (c : PyVal) (a yv f : ℚ) (col : String),
      Call.text c a yv f col ∈
          dispatch elType content x pdfY width height fontSize colorStr pw →
        col = colorStr := by
  intro c a yv f col hm
  unfold dispatch at hm
  rcases content with _ | b | n | q | s <;> (try dsimp only at hm) <;>
    split_ifs at hm <;>
      simp only [List.mem_singleton, List.not_mem_nil] at hm <;> (cases hm <;> rfl)

theorem fillPage_width (objects : List Elem) (n : ℕ) (p : Page) :
    (fillPage objects n p).width = p.width := by
  unfold fillPage; split_ifs <;> rfl

theorem fillPage_height (objects : List Elem) (n : ℕ) (p : Page) :
    (fillPage objects n p).height = p.height := by
  unfold fillPage; split_ifs <;> rfl

theorem fillPage_ops_prefix (objects : List Elem) (n : ℕ) (p : Page) :
    p.ops <+: (fillPage objects n p).ops := by
  unfold fillPage; split_ifs
  · exact List.prefix_rfl
  · exact List.prefix_append _ _

theorem fillPages_length (objects : List Elem) (ps : List Page) :
    ∀ n, (fillPages objects n ps).length = ps.length := by
  induction ps with
  | nil => intro n; rfl
  | cons p rest ih => intro n; simpa [fillPages] using ih (n + 1)

theorem fillPages_get (objects : List Elem) (ps : List Page) :
    ∀ (n i : ℕ) (hi : i < ps.length) (hi' : i < (fillPages objects n ps).length),
      (fillPages objects n ps).get ⟨i, hi'⟩ = fillPage objects (n + i) (ps.get ⟨i, hi⟩) := by
  induction ps with
  | nil => intro n i hi hi'; exact absurd hi (by simp)
  | cons p rest ih =>
    intro n i hi hi'
    cases i with
    | zero => rfl
    | succ j =>
      have hj : j < rest.length := Nat.lt_of_succ_lt_succ hi
      have hj' : j < (fillPages objects (n + 1) rest).length := by
        rw [fillPages_length]; exact hj
      have step : (fillPages objects n (p :: rest)).get ⟨j + 1, hi'⟩ =
          (fillPages objects (n + 1) rest).get ⟨j, hj'⟩ := rfl
      rw [step, ih (n + 1) j hj hj']
      have harith : n + 1 + j = n + (j + 1) := by omega
      rw [harith]; rfl

theorem buildOverlay_cons (e : Elem) (es : List Elem) (ph pw : ℚ) :
    buildOverlay (e :: es) ph pw =
      (match renderElement e ph pw with
        | Except.ok cs => cs
        | Except.error _ => []) ++ buildOverlay es ph pw := rfl

theorem lookupStr_updateFields (fs upd : List (String × String)) (k : String)
    (h : lookupStr upd k = Option.none) :
    lookupStr (updateFields fs upd) k = lookupStr fs k := by
  induction fs with
  | nil => rfl
  | cons kv rest ih =>
    show lookupStr ((kv.1, (lookupStr upd kv.1).getD kv.2) :: updateFields rest upd) k = _
    by_cases hk : kv.1 = k
    · subst hk
      simp [lookupStr, h]
    · simp [lookupStr, hk, ih]

theorem lookupStr_filterEmpty (tvs : List (String × String)) (k : String)
    (h : ∀ v, (k, v) ∈ tvs → v = "") :
    lookupStr (filterEmpty tvs) k = Option.none := by
  induction tvs with
  | nil => rfl
  | cons kv rest ih =>
    have ih' := ih (fun v hv => h v (List.mem_cons_of_mem _ hv))
    by_cases hv : kv.2 = ""
    · have : filterEmpty (kv :: rest) = filterEmpty rest := by
        simp [filterEmpty, hv]
      rw [this, ih']
    · have : filterEmpty (kv :: rest) = kv :: filterEmpty rest := by
        simp [filterEmpty, hv]
      rw [this]
      have hk : kv.1 ≠ k := by
        intro hk
        exact hv (h kv.2 (by rw [← hk]; exact List.mem_cons_self _ _))
      simp [lookupStr, hk, ih']

theorem lookupStr_applyChecks (checks : List (String × Bool)) (k : String)
    (h : ∀ c ∈ checks, c.1 ≠ k ∨ c.2 = false) :
    ∀ fs, lookupStr (applyChecks fs checks) k = lookupStr fs k := by
  induction checks with
  | nil => intro fs; rfl
  | cons c cs ih =>
    intro fs
    have hstep : applyChecks fs (c :: cs) =
        applyChecks (if c.2 then updateFields fs [(c.1, "/Yes")] else fs) cs := rfl
    rw [hstep, ih (fun d hd => h d (List.mem_cons_of_mem _ hd))]
    by_cases hc : c.2 = true
    · have hne : c.1 ≠ k := by
        rcases h c (List.mem_cons_self _ _) with hk | hb
        · exact hk
        · rw [hc] at hb; cases hb
      rw [if_pos hc, lookupStr_updateFields _ _ _ (by simp [lookupStr, hne])]
    · rw [if_neg hc]

/-- C1: for every source buffer that parses as a valid PDF and every element
list, `generate_filled_pdf` succeeds and returns a document with the same
page count as the source, the page at each index keeping its mediabox and
its original content (extended, never replaced): no page is added, removed
or reordered. -/
theorem generate_filled_pdf_preserves_pages (b : String) (objects : List Elem)
    (d : Doc) (h : parsePdf b = Except.ok d) :
    ∃ dd, generate_filled_pdf b objects = Except.ok dd ∧
      dd.pages.length = d.pages.length ∧
      ∀ (i : ℕ) (hi : i < d.pages.length) (hi' : i < dd.pages.length),
        (dd.pages.get ⟨i, hi'⟩).width = (d.pages.get ⟨i, hi⟩).width ∧
        (dd.pages.get ⟨i, hi'⟩).height = (d.pages.get ⟨i, hi⟩).height ∧
        (d.pages.get ⟨i, hi⟩).ops <+: (dd.pages.get ⟨i, hi'⟩).ops := by
  refine ⟨fillDoc d objects, ?_, ?_, ?_⟩
  · unfold generate_filled_pdf; rw [h]
  · exact fillPages_length objects d.pages 1
  · intro i hi hi'
    have hg := fillPages_get objects d.pages 1 i hi hi'
    refine ⟨?_, ?_, ?_⟩
    · show ((fillPages objects 1 d.pages).get ⟨i, hi'⟩).width = _
      rw [hg, fillPage_width]
    · show ((fillPages objects 1 d.pages).get ⟨i, hi'⟩).height = _
      rw [hg, fillPage_height]
    · show _ <+: ((fillPages objects 1 d.pages).get ⟨i, hi'⟩).ops
      rw [hg]; exact fillPage_ops_prefix _ _ _

theorem generate_filled_pdf_preserves_pages_witness :
    parsePdf pdfBytesW = Except.ok docW ∧
    resultPageCount (generate_filled_pdf pdfBytesW []) = some docW.pages.length := by
  have hp : parsePdf pdfBytesW = Except.ok docW := by rfl
  obtain ⟨dd, hdd, hlen, -⟩ :=
    generate_filled_pdf_preserves_pages pdfBytesW [] docW hp
  refine ⟨hp, ?_⟩
  rw [hdd]
  show some dd.pages.length = some docW.pages.length
  rw [hlen]

/-- C2: whenever an element's `y` and `height` fields parse to the numbers
`y` and `height` and its rendering succeeds, every helper call it produces
— text, checkbox glyph or signature image alike — is anchored at
`pdf_y = page_height - y - height + 1`. -/
theorem overlay_anchor (e : Elem) (ph pw y height : ℚ) (calls : List Call)
    (hy : getNumField e "y" 0 = Except.ok y)
    (hh : getNumField e "height" 20 = Except.ok height)
    (hr : renderElement e ph pw = Except.ok calls) :
    ∀ c ∈ calls, c.yArg = ph - y - height + 1 := by
  rw [renderElement_ok_iff] at hr
  obtain ⟨x, y', w, h', fs, col, hx, hy', hw, hh', hfs, hcol, hcalls⟩ := hr
  rw [hy] at hy'; rw [hh] at hh'
  have hy2 : y = y' := Except.ok.inj hy'
  have hh2 : height = h' := Except.ok.inj hh'
  rw [hy2, hh2, hcalls]
  exact dispatch_yArg _ _ _ _ _ _ _ _ _

theorem overlay_anchor_witness :
    Call.yArg (Call.text (PyVal.str "Hello World") 100 (792 - 100 - 20 + 1) 12
        "#000000") = 792 - 100 - 20 + 1 ∧
    ((792 : ℚ) - 100 - 20 + 1) = 673 := by
  have h := overlay_anchor elemTextW 792 612 100 20
    [Call.text (PyVal.str "Hello World") 100 (792 - 100 - 20 + 1) 12 "#000000"]
    (by rfl) (by rfl) (by rfl)
  exact ⟨h _ (List.mem_singleton.mpr rfl), by norm_num⟩

/-- C3: a failure inside one element's rendering (an `Except.error` from
the element body) is confined to that element by the per-element
`try/except`: the overlay of any list containing the failing element is
exactly the overlay of the list without it, so every element before and
after it is still processed and the build completes. -/
theorem overlay_skips_failing_element (ph pw : ℚ) (e : Elem) (msg : String)
    (h : renderElement e ph pw = Except.error msg) :
    ∀ es₁ es₂, buildOverlay (es₁ ++ e :: es₂) ph pw =
      buildOverlay es₁ ph pw ++ buildOverlay es₂ ph pw := by
  intro es₁ es₂
  induction es₁ with
  | nil =>
    show buildOverlay (e :: es₂) ph pw = buildOverlay [] ph pw ++ buildOverlay es₂ ph pw
    rw [buildOverlay_cons, h]; rfl
  | cons a as ih =>
    show buildOverlay (a :: (as ++ e :: es₂)) ph pw = _
    rw [buildOverlay_cons, buildOverlay_cons, ih, List.append_assoc]

theorem overlay_skips_failing_element_witness :
    buildOverlay [elemNoPageW, elemBadXW, elemTextW] 792 612 =
      buildOverlay [elemNoPageW] 792 612 ++ buildOverlay [elemTextW] 792 612 :=
  overlay_skips_failing_element 792 612 elemBadXW
    "ValueError: could not convert string to float" (by rfl)
    [elemNoPageW] [elemTextW]

/-- C5: a source buffer that does not parse — in particular one missing the
`%PDF` magic, such as the empty buffer — makes `generate_filled_pdf` fail
with the document-format error for every element list: the failure is
surfaced to the caller before any page or element is touched, never
swallowed like per-element errors. -/
theorem invalid_source_fails_fast (b : String) :
    (strStartsWith b "%PDF" = false →
      ∀ objects, generate_filled_pdf b objects =
        Except.error "PdfReadError: invalid PDF header") ∧
    (∀ msg, parsePdf b = Except.error msg →
      ∀ objects, generate_filled_pdf b objects = Except.error msg) := by
  constructor
  · intro h objects
    have hp : parsePdf b = Except.error "PdfReadError: invalid PDF header" := by
      unfold parsePdf; rw [h]; rfl
    unfold generate_filled_pdf; rw [hp]
  · intro msg h objects
    unfold generate_filled_pdf; rw [h]

theorem invalid_source_fails_fast_witness :
    (strStartsWith "" "%PDF" = false) ∧
    generate_filled_pdf "" [elemTextW] =
      Except.error "PdfReadError: invalid PDF header" :=
  ⟨by decide, (invalid_source_fails_fast "").1 (by decide) [elemTextW]⟩

/-- C4: a checkbox draws its mark (the glyph `"X"`) iff its content is
boolean `true`, the string `"true"` or the number `1`; on a canonical
checkbox element every content value — in particular `false`, `"false"`,
`None`, `0`, `""` and `"yes"` — renders without error, drawing nothing
unless truthy, and a truthy mark call really produces a drawn `"X"`. -/
theorem checkbox_mark_iff_truthy (v : PyVal) (ph pw : ℚ) :
    renderElement (mkCheckbox v) ph pw =
      Except.ok (if isChecked v then
        [Call.text (PyVal.str "X") 0 (ph - 0 - 20 + 1) 11 "#1e3a8a"] else []) ∧
    (∀ (e : Elem) (calls : List Call),
      getD e "type" (PyVal.str "") = PyVal.str "checkbox" →
      renderElement e ph pw = Except.ok calls →
      ((∃ c ∈ calls, isMark c = true) ↔
        isChecked (getD e "content" (PyVal.str "")) = true)) ∧
    (isChecked (PyVal.bool true) = true ∧ isChecked (PyVal.str "true") = true ∧
      isChecked (PyVal.int 1) = true) ∧
    (isChecked (PyVal.bool false) = false ∧ isChecked (PyVal.str "false") = false ∧
      isChecked PyVal.none = false ∧ isChecked (PyVal.int 0) = false ∧
      isChecked (PyVal.str "") = false ∧ isChecked (PyVal.str "yes") = false) ∧
    execText (PyVal.str "X") 0 (ph - 0 - 20 + 1) 11 "#1e3a8a" =
      [DrawOp.string 0 (ph - 0 - 20 + 1 - 0 * 11) "X" 11 (PdfColor.hexC 1981066)] := by
  refine ⟨rfl, ?_, by decide, by decide, rfl⟩
  intro e calls ht hr
  rw [renderElement_ok_iff] at hr
  obtain ⟨x, y, w, h, fs, col, hx, hy, hw, hh, hfs, hcol, hcalls⟩ := hr
  rw [ht] at hcalls
  cases hchk : isChecked (getD e "content" (PyVal.str "")) with
  | true =>
    constructor
    · intro _; rfl
    · intro _
      rw [hcalls]
      refine ⟨Call.text (PyVal.str "X") x (ph - y - h + 1) fs col, ?_, rfl⟩
      unfold dispatch
      rw [if_neg (by simp), if_pos rfl, if_pos hchk]
      exact List.mem_singleton.mpr rfl
  | false =>
    constructor
    · intro hex
      rcases hex with ⟨c, hc, hmk⟩
      rw [hcalls] at hc
      unfold dispatch at hc
      rw [if_neg (by simp), if_pos rfl, if_neg (by simp [hchk])] at hc
      cases hc
    · intro hcon; cases hcon

theorem checkbox_mark_iff_truthy_witness :
    renderElement (mkCheckbox (PyVal.str "true")) 792 612 =
      Except.ok [Call.text (PyVal.str "X") 0 (792 - 0 - 20 + 1) 11 "#1e3a8a"] ∧
    renderElement (mkCheckbox (PyVal.str "yes")) 792 612 = Except.ok [] := by
  have h1 := (checkbox_mark_iff_truthy (PyVal.str "true") 792 612).1
  have h2 := (checkbox_mark_iff_truthy (PyVal.str "yes") 792 612).1
  rw [show isChecked (PyVal.str "true") = true from by decide] at h1
  rw [show isChecked (PyVal.str "yes") = false from by decide] at h2
  exact ⟨by simpa using h1, by simpa using h2⟩

/-- C6 counterexample: with declared width 100, declared height 30, `x = 0`,
page width 1000 and image aspect ratio 2, the width-constrained height
(`min(100, 990)/2 = 50`) does not exceed the claimed 60pt cap, yet the
drawn size is `(60, 30)` — the drawn width is not
`min(declared width, page_width - x - 10) = 100`, refuting the claim. -/
theorem scaleSig_claim_counterexample :
    scaleSig 100 30 0 1000 2 = (60, 30) ∧
    (scaleSig 100 30 0 1000 2).1 ≠ min 100 (1000 - 0 - 10) ∧
    ¬ (60 < min (100 : ℚ) (1000 - 0 - 10) / 2) := by
  have h1 : scaleSig 100 30 0 1000 2 = (60, 30) := by
    unfold scaleSig
    norm_num [min_def]
  refine ⟨h1, ?_, by norm_num [min_def]⟩
  rw [h1]
  norm_num [min_def]

/-- C6 amended: the binding height cap is `min(declared height, 60)` (not
60pt alone).  When the width-constrained height exceeds that cap, the
height becomes `min(declared height, 60)` with the width derived from the
image's aspect ratio; otherwise the drawn size is the width-constrained
one.  Either way the drawn width/height ratio equals the image's aspect
ratio and the drawn height never exceeds `min(declared height, 60)`. -/
theorem scaleSig_amended (width height x pw r : ℚ) (hh : 0 < height) (hr : 0 < r) :
    (min height 60 < min width (pw - x - 10) / r →
      scaleSig width height x pw r = (min height 60 * r, min height 60)) ∧
    (min width (pw - x - 10) / r ≤ min height 60 →
      scaleSig width height x pw r =
        (min width (pw - x - 10), min width (pw - x - 10) / r)) ∧
    (scaleSig width height x pw r).1 = (scaleSig width height x pw r).2 * r ∧
    (scaleSig width height x pw r).2 ≤ min height 60 := by
  have hdh : 0 < min height 60 := lt_min hh (by norm_num)
  by_cases hcond : min height 60 < min width (pw - x - 10) / r
  · have he : scaleSig width height x pw r = (min height 60 * r, min height 60) := by
      show (if 0 < min height 60 ∧ min height 60 < min width (pw - x - 10) / r then
          (min height 60 * r, min height 60)
        else (min width (pw - x - 10),
          if 0 < r then min width (pw - x - 10) / r else min height 60)) =
        (min height 60 * r, min height 60)
      rw [if_pos ⟨hdh, hcond⟩]
    refine ⟨fun _ => he, fun hle => absurd hcond (not_lt.mpr hle), ?_, ?_⟩
    · rw [he]
    · rw [he]
  · have hle : min width (pw - x - 10) / r ≤ min height 60 := not_lt.mp hcond
    have he : scaleSig width height x pw r =
        (min width (pw - x - 10), min width (pw - x - 10) / r) := by
      show (if 0 < min height 60 ∧ min height 60 < min width (pw - x - 10) / r then
          (min height 60 * r, min height 60)
        else (min width (pw - x - 10),
          if 0 < r then min width (pw - x - 10) / r else min height 60)) =
        (min width (pw - x - 10), min width (pw - x - 10) / r)
      rw [if_neg (fun hcon => hcond hcon.2), if_pos hr]
    refine ⟨fun hgt => absurd hgt hcond, fun _ => he, ?_, ?_⟩
    · rw [he]
      exact (div_mul_cancel₀ _ (ne_of_gt hr)).symm
    · rw [he]
      exact hle

theorem scaleSig_amended_witness :
    (0 : ℚ) < 30 ∧ (0 : ℚ) < 2 ∧ min (30 : ℚ) 60 < min 100 (1000 - 0 - 10) / 2 ∧
    scaleSig 100 30 0 1000 2 = (min 30 60 * 2, min 30 60) := by
  have hlt : min (30 : ℚ) 60 < min 100 (1000 - 0 - 10) / 2 := by norm_num [min_def]
  exact ⟨by norm_num, by norm_num, hlt,
    (scaleSig_amended 100 30 0 1000 2 (by norm_num) (by norm_num)).1 hlt⟩

/-- C7 counterexample: on an element whose color string is malformed
(`"zzzz"`), the text is drawn in reportlab's `black` fallback, not in the
brand blue `#1e3a8a` — refuting the claim that a malformed color defaults
to the brand blue. -/
theorem malformed_color_counterexample :
    renderElement elemBadColorW 792 612 =
      Except.ok [Call.text (PyVal.str "Hi") 0 (792 - 0 - 20 + 1) 11 "#zzzz"] ∧
    execText (PyVal.str "Hi") 0 (792 - 0 - 20 + 1) 11 "#zzzz" =
      [DrawOp.string 0 (792 - 0 - 20 + 1 - 0 * 11) "Hi" 11 PdfColor.black] ∧
    resolveColor "#1e3a8a" = PdfColor.hexC 1981066 ∧
    PdfColor.black ≠ PdfColor.hexC 1981066 :=
  ⟨rfl, rfl, rfl, by decide⟩

/-- C7 amended: an absent color field defaults to the brand blue
`#1e3a8a` (which parses to a non-black color), while a color string that
fails hex parsing falls back to solid black. -/
theorem color_default_amended :
    (∀ (e : Elem) (ph pw : ℚ) (calls : List Call) (content : PyVal)
        (x yv fs : ℚ) (col : String),
      lookupKey e "color" = Option.none →
      renderElement e ph pw = Except.ok calls →
      Call.text content x yv fs col ∈ calls → col = "#1e3a8a") ∧
    (∀ s, hexVal? s = Option.none → resolveColor s = PdfColor.black) ∧
    resolveColor "#1e3a8a" ≠ PdfColor.black := by
  refine ⟨?_, ?_, by decide⟩
  · intro e ph pw calls content x yv fs col hc hr hm
    rw [renderElement_ok_iff] at hr
    obtain ⟨x', y', w', h', fs', col', hx, hy, hw, hh, hfs, hcol, hcalls⟩ := hr
    have hcol2 : ensureColor (getRaw e "color") = Except.ok "#1e3a8a" := by
      show ensureColor ((lookupKey e "color").getD PyVal.none) = _
      rw [hc]; rfl
    have hb : col' = "#1e3a8a" := (Except.ok.inj (hcol2.symm.trans hcol)).symm
    rw [hcalls] at hm
    exact (dispatch_textColor _ _ _ _ _ _ _ _ _ _ _ _ _ _ hm).trans hb
  · intro s hs
    unfold resolveColor
    rw [hs]

theorem color_default_amended_witness :
    lookupKey elemNoColorW "color" = Option.none ∧
    ("#1e3a8a" : String) = "#1e3a8a" ∧
    hexVal? "#zzzz" = Option.none ∧
    resolveColor "#zzzz" = PdfColor.black := by
  refine ⟨rfl, ?_, rfl, color_default_amended.2.1 "#zzzz" rfl⟩
  exact color_default_amended.1 elemNoColorW 792 612
    [Call.text (PyVal.str "Hi") 0 (792 - 0 - 20 + 1) 11 "#1e3a8a"]
    (PyVal.str "Hi") 0 (792 - 0 - 20 + 1) 11 "#1e3a8a" rfl rfl
    (List.mem_singleton.mpr rfl)

/-- C8: in the named-field filler, a text field whose computed value is
empty (or absent) is dropped by the `if v` comprehension before the form
update, so the template's existing default for that field survives the
fill unchanged, and every value actually written is non-empty. -/
theorem tceq_skips_empty_text (d : AcroDoc) (tvs : List (String × String))
    (checks : List (String × Bool)) (k : String)
    (hp : d.numPages ≠ 0) (hf : d.hasForm = true)
    (hv : ∀ v, (k, v) ∈ tvs → v = "")
    (hc : ∀ c ∈ checks, c.1 ≠ k ∨ c.2 = false) :
    fillTceq (Except.ok d) tvs checks =
      Except.ok { d with
        fields := applyChecks (updateFields d.fields (filterEmpty tvs)) checks } ∧
    lookupStr (applyChecks (updateFields d.fields (filterEmpty tvs)) checks) k =
      lookupStr d.fields k ∧
    ∀ kv ∈ filterEmpty tvs, kv.2 ≠ "" := by
  refine ⟨?_, ?_, ?_⟩
  · unfold fillTceq
    show (if d.numPages = 0 then Except.error "IndexError: pages[0]"
      else if d.hasForm = false then Except.error "PdfReadError: no AcroForm"
      else Except.ok { d with
        fields := applyChecks (updateFields d.fields (filterEmpty tvs)) checks }) = _
    rw [if_neg hp, if_neg (by simp [hf])]
  · rw [lookupStr_applyChecks checks k hc,
      lookupStr_updateFields _ _ _ (lookupStr_filterEmpty tvs k hv)]
  · intro kv hkv
    exact of_decide_eq_true (List.mem_filter.mp hkv).2

theorem tceq_skips_empty_text_witness :
    fillTceq (Except.ok acroW) [("a", ""), ("b", "v")] [("c", true)] =
      Except.ok { acroW with
        fields := applyChecks
          (updateFields acroW.fields (filterEmpty [("a", ""), ("b", "v")]))
          [("c", true)] } ∧
    lookupStr
        (applyChecks
          (updateFields acroW.fields (filterEmpty [("a", ""), ("b", "v")]))
          [("c", true)]) "a" =
      lookupStr acroW.fields "a" := by
  have h := tceq_skips_empty_text acroW [("a", ""), ("b", "v")] [("c", true)] "a"
    (by decide) (by decide)
    (by intro v hvv; simpa using hvv)
    (by decide)
  exact ⟨h.1, h.2.1⟩

/-- C9: any exception escaping the named-field fill is caught by the
caller's `try/except` and replaced by the independent reference renderer's
output — the error never propagates and the operation still returns a
document. -/
theorem generate_pdf_falls_back (template : Except String AcroDoc)
    (tvs : List (String × String)) (checks : List (String × Bool))
    (ref : AcroDoc) (msg : String)
    (h : fillTceq template tvs checks = Except.error msg) :
    generatePdf template tvs checks ref = ref := by
  unfold generatePdf
  rw [h]

theorem generate_pdf_falls_back_witness :
    fillTceq (Except.error "FileNotFoundError: TCEQ.pdf") [] [] =
      Except.error "FileNotFoundError: TCEQ.pdf" ∧
    generatePdf (Except.error "FileNotFoundError: TCEQ.pdf") [] [] refW = refW :=
  ⟨rfl, generate_pdf_falls_back _ [] [] refW _ rfl⟩

/-- C10: an element with no `page` key defaults to page number 1 in the
compositor's filter — it is collected for the first page, and for no other
page — rather than being ignored like an out-of-range page value. -/
theorem missing_page_key_goes_to_page_one (e : Elem) (objects : List Elem)
    (h : lookupKey e "page" = Option.none) (hm : e ∈ objects) :
    e ∈ pageElems objects 1 ∧ ∀ n : ℕ, n ≠ 1 → e ∉ pageElems objects n := by
  have hp : getD e "page" (PyVal.int 1) = PyVal.int 1 := by
    unfold getD; rw [h]; rfl
  constructor
  · refine List.mem_filter.mpr ⟨hm, ?_⟩
    rw [hp]; decide
  · intro n hn hmem
    have h2 := (List.mem_filter.mp hmem).2
    rw [hp] at h2
    have h3 : ((1 : ℤ) : ℚ) = (((n : ℤ) : ℚ)) := by
      simpa [pyEq, toNum?] using h2
    exact hn (by exact_mod_cast h3.symm)

theorem missing_page_key_goes_to_page_one_witness :
    lookupKey elemNoPageW "page" = Option.none ∧
    elemNoPageW ∈ pageElems [elemNoPageW] 1 ∧
    elemNoPageW ∉ pageElems [elemNoPageW] 2 := by
  have h := missing_page_key_goes_to_page_one elemNoPageW [elemNoPageW] rfl
    (List.mem_singleton.mpr rfl)
  exact ⟨rfl, h.1, h.2 2 (by decide)⟩

end PdfTitan
